import Mathlib

/-!
Verification development for the analytics/forecasting engine of the
weather-project repository (file `analysis.py`).

The shallow embedding below models a pandas DataFrame as a `List Row`.
A cell of the table is modelled by `Cell`: `na` is a missing value
(NaN/None), `str s` a Python string value, `num q` a numeric value
(floats are idealised as exact rationals).  Dates are represented by the
result of `pd.to_datetime(..., errors="coerce")`: `some d` is a valid
timestamp given as a day number (days since 1970-01-01), `none` is `NaT`;
on this representation the `to_datetime` step of `preprocess_data`
(line 127 of analysis.py) is the identity, since applying `to_datetime`
to an already-converted column changes nothing.

The trained LightGBM quantile models are treated as opaque functions
(`QModel`), and the scikit-learn linear-regression fit in
`train_aqi_prediction_model` as an opaque `fit` argument: both are
external-library training calls whose numeric output the claims never
constrain.
-/

namespace Weather

/-- One table cell: missing (NaN/None), a string, or a number. -/
inductive Cell where
  | na : Cell
  | str (s : String) : Cell
  | num (q : ℚ) : Cell
deriving DecidableEq

/-- `pd.isna` on a cell. -/
def Cell.isna : Cell → Bool
  | .na => true
  | _ => false

/-- Python `isinstance(x, str)`: the string payload when the cell holds a string. -/
def Cell.asString : Cell → Option String
  | .str s => some s
  | _ => none

/-- Whether the cell holds a number. -/
def Cell.isNum : Cell → Bool
  | .num _ => true
  | _ => false

/-- Numeric payload with a default (used only where analysis.py has already
guaranteed the cell is numeric). -/
def Cell.numD (c : Cell) (d : ℚ) : ℚ :=
  match c with
  | .num q => q
  | _ => d

/-- Value of a run of decimal digit characters. -/
def digitsToNat (cs : List Char) : ℕ :=
  cs.foldl (fun a c => a * 10 + (c.toNat - 48)) 0

/-- Model of the numeric-string parsing done by `pd.to_numeric`:
optional sign, integer part, optional fractional part. -/
def parseNumericString (s : String) : Option ℚ :=
  let cs := s.trim.toList
  let signAndRest : ℚ × List Char :=
    match cs with
    | '-' :: rest => (-1, rest)
    | '+' :: rest => (1, rest)
    | _ => (1, cs)
  let sign := signAndRest.1
  let body := signAndRest.2
  let intPart := body.takeWhile Char.isDigit
  let rest := body.dropWhile Char.isDigit
  match rest with
  | [] => if intPart.isEmpty then none else some (sign * digitsToNat intPart)
  | '.' :: frac =>
    if frac.all Char.isDigit && !(intPart.isEmpty && frac.isEmpty) then
      some (sign * ((digitsToNat intPart : ℚ) + (digitsToNat frac : ℚ) / (10 ^ frac.length)))
    else none
  | _ => none

/-- `pd.to_numeric(x, errors="coerce")` on one cell: numbers pass through,
parseable strings become numbers, everything else becomes NaN. -/
def Cell.toNumeric : Cell → Cell
  | .na => .na
  | .num q => .num q
  | .str s =>
    match parseNumericString s with
    | some q => .num q
    | none => .na

/-- One row of the table.  The derived columns `wind_speed`,
`wind_direction` and `weather_simple` are present from the start (with
inert defaults) because `preprocess_data` overwrites them unconditionally. -/
structure Row where
  date : Option ℤ
  max_temp : Cell
  min_temp : Cell
  weather : Cell
  wind : Cell
  aqi : Cell
  wind_speed : Cell := .na
  wind_direction : Option String := none
  weather_simple : String := ""
deriving DecidableEq

def dummyRow : Row :=
  { date := none, max_temp := .na, min_temp := .na, weather := .na, wind := .na, aqi := .na }

/-- `_extract_wind_speed_and_direction` (analysis.py:50): non-strings give
`(None, None)`; otherwise the direction is the input with every digit and
every `级` character removed and whitespace stripped, and the speed is the
first run of digits, if any. -/
def _extract_wind_speed_and_direction (wind : Cell) : Option ℕ × Option String :=
  match wind.asString with
  | none => (none, none)
  | some s =>
    let cs := s.toList
    let direction := (String.mk ((cs.filter (fun c => !c.isDigit)).filter (fun c => c != '级'))).trim
    let digitRun := (cs.dropWhile (fun c => !c.isDigit)).takeWhile Char.isDigit
    let speed := if digitRun.isEmpty then none else some (digitsToNat digitRun)
    (speed, some direction)

/-- The column-adding half of `preprocess_data` (analysis.py:104-111):
derive `wind_speed`, `wind_direction` and `weather_simple`. -/
def enrichDerived (r : Row) : Row :=
  let sd := _extract_wind_speed_and_direction r.wind
  { r with
    wind_speed :=
      match sd.1 with
      | some k => .num k
      | none => .na
    wind_direction := sd.2
    weather_simple :=
      match r.weather.asString with
      | some s => ((s.splitOn "~").headD "").trim
      | none => "未知" }

/-- The predicate of `dropna(subset=["max_temp","min_temp","wind_speed","aqi"])`
(analysis.py:114 and 123): keep a row when none of the four key columns is missing. -/
def dropnaKey (r : Row) : Bool :=
  !(r.max_temp.isna || r.min_temp.isna || r.wind_speed.isna || r.aqi.isna)

/-- The numeric coercion of `preprocess_data` (analysis.py:117-120). -/
def coerceNumeric (r : Row) : Row :=
  { r with
    wind_speed := r.wind_speed.toNumeric
    max_temp := r.max_temp.toNumeric
    min_temp := r.min_temp.toNumeric
    aqi := r.aqi.toNumeric }

/-- `preprocess_data` (analysis.py:82-129): derive wind/weather features,
drop rows with missing key fields, coerce the numeric columns, drop again.
The final `pd.to_datetime` step is the identity on this representation
(dates are already stored as parse results), and the function is pure:
the caller's list is never mutated. -/
def preprocess_data (df : List Row) : List Row :=
  (((df.map enrichDerived).filter dropnaKey).map coerceNumeric).filter dropnaKey

/-- The per-row transformation applied by `preprocess_data` to every surviving row. -/
def enrichRow (r : Row) : Row :=
  coerceNumeric (enrichDerived r)

/-- The predicate deciding whether `preprocess_data` keeps a row: both
`dropna` passes (before and after numeric coercion) must keep it. -/
def keepRow (r : Row) : Bool :=
  dropnaKey (enrichDerived r) && dropnaKey (coerceNumeric (enrichDerived r))

theorem preprocess_eq_filter_map (df : List Row) :
    preprocess_data df = (df.filter keepRow).map enrichRow := by
  induction df with
  | nil => rfl
  | cons r t ih =>
    unfold preprocess_data at *
    simp only [List.map_cons, List.filter_cons]
    by_cases h1 : dropnaKey (enrichDerived r)
    · by_cases h2 : dropnaKey (coerceNumeric (enrichDerived r))
      · simp [h1, h2, keepRow, enrichRow, ih]
      · simp [h1, h2, keepRow, enrichRow, ih]
    · simp [h1, keepRow, ih]

/-- All four numeric columns of a row hold numbers. -/
def rowNumericOk (r : Row) : Bool :=
  r.max_temp.isNum && r.min_temp.isNum && r.wind_speed.isNum && r.aqi.isNum

theorem toNumeric_isNum_of_not_isna (c : Cell) (h : (Cell.toNumeric c).isna = false) :
    (Cell.toNumeric c).isNum = true := by
  cases c with
  | na => simp [Cell.toNumeric, Cell.isna] at h
  | num q => rfl
  | str s =>
    simp only [Cell.toNumeric] at *
    cases hp : parseNumericString s with
    | none => rw [hp] at h; simp [Cell.isna] at h
    | some q => rfl

/-- Insert an element into a sorted list, keeping it before later ties
(a stable insertion). -/
def insertSorted (le : α → α → Bool) (a : α) : List α → List α
  | [] => [a]
  | b :: bs => if le a b then a :: b :: bs else b :: insertSorted le a bs

/-- Stable insertion sort, modelling `DataFrame.sort_values`. -/
def isort (le : α → α → Bool) : List α → List α
  | [] => []
  | a :: l => insertSorted le a (isort le l)

theorem length_insertSorted (le : α → α → Bool) (a : α) (l : List α) :
    (insertSorted le a l).length = l.length + 1 := by
  induction l with
  | nil => rfl
  | cons b bs ih =>
    unfold insertSorted
    by_cases h : le a b
    · simp [h]
    · simp [h, ih]

theorem length_isort (le : α → α → Bool) (l : List α) :
    (isort le l).length = l.length := by
  induction l with
  | nil => rfl
  | cons a t ih => simp [isort, length_insertSorted, ih]

theorem mem_insertSorted (le : α → α → Bool) (a x : α) (l : List α) :
    x ∈ insertSorted le a l ↔ x = a ∨ x ∈ l := by
  induction l with
  | nil => simp [insertSorted]
  | cons b bs ih =>
    unfold insertSorted
    by_cases h : le a b
    · simp [h]
    · simp [h, ih]
      tauto

theorem mem_isort (le : α → α → Bool) (x : α) (l : List α) :
    x ∈ isort le l ↔ x ∈ l := by
  induction l with
  | nil => simp [isort]
  | cons a t ih => simp [isort, mem_insertSorted, ih]

theorem pairwise_insertSorted (le : α → α → Bool)
    (htot : ∀ a b, le a b = false → le b a = true)
    (htrans : ∀ a b c, le a b = true → le b c = true → le a c = true)
    (a : α) (l : List α) (h : l.Pairwise (fun x y => le x y = true)) :
    (insertSorted le a l).Pairwise (fun x y => le x y = true) := by
  induction l with
  | nil => simp [insertSorted]
  | cons b bs ih =>
    unfold insertSorted
    rcases List.pairwise_cons.mp h with ⟨hb, hbs⟩
    by_cases hab : le a b
    · simp only [hab, if_true]
      refine List.pairwise_cons.mpr ⟨?_, h⟩
      intro x hx
      rcases List.mem_cons.mp hx with hxb | hxbs
      · rw [hxb]; exact hab
      · exact htrans a b x hab (hb x hxbs)
    · simp only [hab, Bool.false_eq_true, if_false]
      refine List.pairwise_cons.mpr ⟨?_, ih hbs⟩
      intro x hx
      rcases (mem_insertSorted le a x bs).mp hx with hxa | hxbs
      · rw [hxa]
        exact htot a b (Bool.eq_false_iff.mpr hab)
      · exact hb x hxbs

theorem pairwise_isort (le : α → α → Bool)
    (htot : ∀ a b, le a b = false → le b a = true)
    (htrans : ∀ a b c, le a b = true → le b c = true → le a c = true)
    (l : List α) : (isort le l).Pairwise (fun x y => le x y = true) := by
  induction l with
  | nil => simp [isort]
  | cons a t ih => exact pairwise_insertSorted le htot htrans a _ ih

/-- Row comparison used by `sort_values("date")`: ascending dates, with
`NaT` placed last (pandas default `na_position="last"`). -/
def rowDateLE (a b : Row) : Bool :=
  match a.date, b.date with
  | none, none => true
  | none, some _ => false
  | some _, none => true
  | some x, some y => x ≤ y

/-- `df.sort_values("date")`. -/
def sortByDate (rows : List Row) : List Row :=
  isort rowDateLE rows

theorem rowDateLE_total (a b : Row) (h : rowDateLE a b = false) : rowDateLE b a = true := by
  unfold rowDateLE at *
  cases ha : a.date with
  | none =>
    cases hb : b.date with
    | none => simp [ha, hb] at h
    | some y => simp [ha, hb]
  | some x =>
    cases hb : b.date with
    | none => simp [ha, hb] at h
    | some y =>
      simp [ha, hb] at *
      omega

theorem rowDateLE_trans (a b c : Row) (h1 : rowDateLE a b = true) (h2 : rowDateLE b c = true) :
    rowDateLE a c = true := by
  unfold rowDateLE at *
  revert h1 h2
  cases a.date <;> cases b.date <;> cases c.date <;> simp
  all_goals omega

/-- Day-of-week of a day number (days since 1970-01-01, which was a
Thursday); Monday = 0, matching `Series.dt.dayofweek`. -/
def dayOfWeek (d : ℤ) : ℤ :=
  (d + 3) % 7

/-- Calendar month (1-12) of a day number, by the standard
days-to-civil-date conversion. -/
def monthOfDay (z : ℤ) : ℕ :=
  let d := z + 719468
  let doe := d % 146097
  let yoe := (doe - doe / 1460 + doe / 36524 - doe / 146096) / 365
  let doy := doe - (365 * yoe + yoe / 4 - yoe / 100)
  let mp := (5 * doy + 2) / 153
  (if mp < 10 then mp + 3 else mp - 9).toNat

/-- One row of the supervised training table built by
`_build_supervised_dataset`: the original columns plus the lag block,
the time features and the label.  A missing value arising from `shift`
is `Cell.na`, exactly as in pandas. -/
structure SRow where
  base : Row
  lagBlock : List Cell
  dow : Option ℤ
  month : Option ℕ
  aqi_next : Cell
deriving DecidableEq

/-- Row `j` of the supervised table over the date-sorted input:
`aqi_lag_i` is the aqi of row `j - i` (row-order shift, not calendar
shift), `dow`/`month` come from the row's date, and the label is the
next row's aqi. -/
def mkSRow (sorted : List Row) (lags : ℕ) (j : ℕ) : SRow :=
  let r := sorted.getD j dummyRow
  { base := r
    lagBlock := (List.range lags).map (fun i0 =>
      if i0 + 1 ≤ j then (sorted.getD (j - (i0 + 1)) dummyRow).aqi else Cell.na)
    dow := r.date.map dayOfWeek
    month := r.date.map monthOfDay
    aqi_next := if j + 1 < sorted.length then (sorted.getD (j + 1) dummyRow).aqi else Cell.na }

/-- `df2.dropna()` predicate over a supervised row: true when any column
of the row (original, derived, lag, time, or label) is missing. -/
def srowHasNA (s : SRow) : Bool :=
  s.base.date.isNone || s.base.max_temp.isna || s.base.min_temp.isna || s.base.weather.isna
    || s.base.wind.isna || s.base.aqi.isna || s.base.wind_speed.isna
    || s.base.wind_direction.isNone || s.lagBlock.any Cell.isna
    || s.dow.isNone || s.month.isNone || s.aqi_next.isna

/-- `_build_supervised_dataset` (analysis.py:289-320): sort by date,
add lag columns, time features and the shifted label, then drop every
row containing a missing value.  The reset of the index to a contiguous
range is implicit in the list representation. -/
def _build_supervised_dataset (df : List Row) (lags : ℕ) : List SRow :=
  let sorted := sortByDate df
  ((List.range sorted.length).map (mkSRow sorted lags)).filter (fun s => !srowHasNA s)

/-- Python's `round` (banker's rounding, half to even) on an exact rational. -/
def pyRound (q : ℚ) : ℤ :=
  let f := Rat.floor q
  let r := q - f
  if r < 1 / 2 then f
  else if 1 / 2 < r then f + 1
  else if f % 2 = 0 then f else f + 1

/-- Python `round(x, 2)`. -/
def pyRound2 (q : ℚ) : ℚ :=
  (pyRound (q * 100) : ℚ) / 100

/-- Python `round(x, 3)`. -/
def pyRound3 (q : ℚ) : ℚ :=
  (pyRound (q * 1000) : ℚ) / 1000

/-- Level, colour and health tip returned by `_aqi_level_details`. -/
structure LevelDetails where
  level : String
  color : String
  tip : String
deriving DecidableEq

def levelUnknown : LevelDetails :=
  ⟨"未知", "#9e9e9e", "数据缺失，无法评估。"⟩

def levelGood : LevelDetails :=
  ⟨"优", "#4caf50", "空气质量令人满意，基本无空气污染，各类人群可正常活动。"⟩

def levelModerate : LevelDetails :=
  ⟨"良", "#ffc107", "空气质量可接受，但某些污染物可能对极少数异常敏感人群健康有较弱影响。"⟩

def levelLight : LevelDetails :=
  ⟨"轻度污染", "#ff9800", "易感人群症状有轻度加剧，健康人群出现刺激症状。建议儿童、老年人及心脏病、呼吸系统疾病患者减少长时间、高强度的户外锻炼。"⟩

def levelMedium : LevelDetails :=
  ⟨"中度污染", "#f44336", "进一步加剧易感人群症状，可能对健康人群心脏、呼吸系统有影响。建议儿童、老年人及心脏病、呼吸系统疾病患者避免长时间、高强度的户外锻炼，一般人群适量减少户外运动。"⟩

def levelHeavy : LevelDetails :=
  ⟨"重度污染", "#9c27b0", "心脏病和肺病患者症状显著加剧，运动耐受力降低，健康人群普遍出现症状。建议儿童、老年人和心脏病、肺病患者应停留在室内，停止户外运动，一般人群避免户外运动。"⟩

def levelSevere : LevelDetails :=
  ⟨"严重污染", "#795548", "健康人群运动耐受力降低，有明显强烈症状，提前出现某些疾病。建议儿童、老年人和病人应停留在室内，避免体力消耗，一般人群应避免户外活动。"⟩

/-- `_aqi_level_details` (analysis.py:265-281): `none` models a `None` or
NaN input; a numeric input is rounded to the nearest integer and bucketed
with inclusive upper bounds 50/100/150/200/300. -/
def _aqi_level_details (aqi : Option ℚ) : LevelDetails :=
  match aqi with
  | none => levelUnknown
  | some q =>
    let a := pyRound q
    if a ≤ 50 then levelGood
    else if a ≤ 100 then levelModerate
    else if a ≤ 150 then levelLight
    else if a ≤ 200 then levelMedium
    else if a ≤ 300 then levelHeavy
    else levelSevere

/-- The clamped interval width computed at analysis.py:442. -/
def intervalWidth (p10 p90 : ℚ) : ℚ :=
  max 0 (p90 - p10)

/-- The confidence score computed at analysis.py:443 (from the
pre-clamped width). -/
def confidenceOfInterval (p10 p90 : ℚ) : ℚ :=
  max 0 (min 1 (1 - intervalWidth p10 p90 / 120))

/-- The confidence formula exactly as the spec words it (§4.7f), without
the code's pre-clamping of the width. -/
def confidenceSpecFormula (p10 p90 : ℚ) : ℚ :=
  max 0 (min 1 (1 - (p90 - p10) / 120))

/-- Feature vector of one forecast step, in the order of `feature_cols`:
the lag block, the three meteorological features, and the time features. -/
structure FeatVec where
  lagBlock : List ℚ
  max_temp : ℚ
  min_temp : ℚ
  wind_speed : ℚ
  dow : ℤ
  month : ℕ
deriving DecidableEq

/-- One entry of the optional `future_meteo_7d` argument; missing keys
fall back to the persistence values (`dict.get` with default). -/
structure Meteo where
  max_temp : Option ℚ := none
  min_temp : Option ℚ := none
  wind_speed : Option ℚ := none
deriving DecidableEq

/-- One emitted forecast entry (analysis.py:445-454).  The target date is
kept as a day number. -/
structure ForecastPoint where
  date : ℤ
  aqi_p10 : ℚ
  aqi_p50 : ℚ
  aqi_p90 : ℚ
  confidence : ℚ
  level : String
  color : String
  tip : String
deriving DecidableEq

/-- The `model_info` part of the success payload (analysis.py:458-463). -/
structure ModelInfo where
  train_samples : ℕ
  lags : ℕ
  quantiles : List ℚ
  note : String
deriving DecidableEq

/-- Result of `forecast_aqi_7_days`: the structured insufficient-data
error, an uncaught Python exception (modelled abstractly), or the
success payload. -/
inductive ForecastResult where
  | error (msg : String)
  | crash
  | ok (forecast : List ForecastPoint) (model_info : ModelInfo)
deriving DecidableEq

/-- The trained quantile model set, treated as an opaque function from a
quantile level and a feature vector to a prediction. -/
def QModel : Type :=
  ℚ → FeatVec → ℚ

/-- Per-invocation constants of the recursive forecast loop. -/
structure FCtx where
  lags : ℕ
  quantiles : List ℚ
  futureMeteo : List Meteo
  lastMax : ℚ
  lastMin : ℚ
  lastWind : ℚ
  lastDate : ℤ

/-- The lag block `[recentAqi[-1], ..., recentAqi[-L]]` (most recent
first), as read at analysis.py:412-413. -/
def lagBlockOf (lags : ℕ) (recent : List ℚ) : List ℚ :=
  (List.range lags).map (fun i0 => recent.getD (recent.length - 1 - i0) 0)

/-- The lag block with Python's bounds behaviour: `recent_aqi[-i]` raises
IndexError when `i` exceeds the list length, modelled by `none`. -/
def buildLagBlock (lags : ℕ) (recent : List ℚ) : Option (List ℚ) :=
  if lags ≤ recent.length then some (lagBlockOf lags recent) else none

/-- The feature vector of one step (analysis.py:410-426): lag block from
the current `recent_aqi`, future meteorology from the caller-supplied list
when it covers this step and the persistence values otherwise, and time
features of `last_date + step` days. -/
def stepFeatures (ctx : FCtx) (recent : List ℚ) (step : ℕ) : Option FeatVec :=
  match buildLagBlock ctx.lags recent with
  | none => none
  | some lb =>
    let targetDate := ctx.lastDate + step
    let met :=
      if step ≤ ctx.futureMeteo.length then
        let m := ctx.futureMeteo.getD (step - 1) {}
        (m.max_temp.getD ctx.lastMax, m.min_temp.getD ctx.lastMin, m.wind_speed.getD ctx.lastWind)
      else (ctx.lastMax, ctx.lastMin, ctx.lastWind)
    some { lagBlock := lb, max_temp := met.1, min_temp := met.2.1, wind_speed := met.2.2,
           dow := dayOfWeek targetDate, month := monthOfDay targetDate }

/-- `preds.get(0.5, list(preds.values())[0])` (analysis.py:434): the
median model's prediction when 0.5 was requested, otherwise the first
requested quantile's prediction; with an empty quantile list the eagerly
evaluated default raises IndexError, modelled by `none`. -/
def pickP50 (M : QModel) (quantiles : List ℚ) (feat : FeatVec) : Option ℚ :=
  match quantiles with
  | [] => none
  | q0 :: _ => some (if (1 : ℚ) / 2 ∈ quantiles then M (1 / 2) feat else M q0 feat)

/-- `preds.get(q, dflt)` for the 0.1 and 0.9 lookups (analysis.py:439-440). -/
def quantLookup (M : QModel) (quantiles : List ℚ) (q : ℚ) (feat : FeatVec) (dflt : ℚ) : ℚ :=
  if q ∈ quantiles then M q feat else dflt

/-- Assemble one emitted forecast entry (analysis.py:441-454). -/
def mkPoint (targetDate : ℤ) (p10 p50 p90 : ℚ) : ForecastPoint :=
  let conf := confidenceOfInterval p10 p90
  let d := _aqi_level_details (some p50)
  { date := targetDate, aqi_p10 := pyRound2 p10, aqi_p50 := pyRound2 p50,
    aqi_p90 := pyRound2 p90, confidence := pyRound3 conf,
    level := d.level, color := d.color, tip := d.tip }

/-- Everything one loop iteration produces: the feature vector it built,
the point forecast it feeds back, and the emitted entry. -/
structure StepOut where
  feat : FeatVec
  p50 : ℚ
  point : ForecastPoint
deriving DecidableEq

def dummyStep : StepOut :=
  { feat := { lagBlock := [], max_temp := 0, min_temp := 0, wind_speed := 0, dow := 0, month := 0 },
    p50 := 0,
    point := { date := 0, aqi_p10 := 0, aqi_p50 := 0, aqi_p90 := 0, confidence := 0,
               level := "", color := "", tip := "" } }

/-- One iteration of the loop at analysis.py:407-454. -/
def stepCompute (M : QModel) (ctx : FCtx) (recent : List ℚ) (step : ℕ) : Option StepOut :=
  match stepFeatures ctx recent step with
  | none => none
  | some feat =>
    match pickP50 M ctx.quantiles feat with
    | none => none
    | some p50 =>
      let p10 := quantLookup M ctx.quantiles (1 / 10) feat p50
      let p90 := quantLookup M ctx.quantiles (9 / 10) feat p50
      some { feat := feat, p50 := p50, point := mkPoint (ctx.lastDate + step) p10 p50 p90 }

/-- The recursive forecast loop: each step's point forecast is appended
to `recent_aqi` before the next step runs (analysis.py:437).  `none`
models an uncaught exception inside the loop. -/
def forecastLoop (M : QModel) (ctx : FCtx) : List ℚ → ℕ → ℕ → Option (List StepOut)
  | _, _, 0 => some []
  | recent, step, fuel + 1 =>
    match stepCompute M ctx recent step with
    | none => none
    | some out =>
      match forecastLoop M ctx (recent ++ [out.p50]) (step + 1) fuel with
      | none => none
      | some rest => some (out :: rest)

/-- `df_processed["date"].nunique()`: the number of distinct valid
(non-NaT) dates. -/
def distinctDates (rows : List Row) : ℕ :=
  ((rows.filterMap Row.date).dedup).length

/-- The f-string error message of analysis.py:354. -/
def insufficientForecastMsg (n : ℕ) : String :=
  "有效日期样本不足（需要至少 " ++ toString n ++ " 天），无法进行7日预测。"

/-- `forecast_aqi_7_days` (analysis.py:323-464), with the trained
quantile model set abstracted into the opaque `M`.  A `None`
`future_meteo_7d` argument is represented by `[]` (both are falsy in the
guard at analysis.py:415).  After the date guard, an empty supervised
dataset makes Python raise (LightGBM's fit on an empty table, or
`ds.iloc[-1]` at analysis.py:390), modelled by `.crash`, as does the
IndexError on an empty quantile list inside the loop. -/
def forecast_aqi_7_days (M : QModel) (df : List Row) (horizon : ℕ) (lags : ℕ)
    (quantiles : List ℚ) (future_meteo : List Meteo) : ForecastResult :=
  let p := preprocess_data df
  if distinctDates p < lags + 30 then
    .error (insufficientForecastMsg (lags + 30))
  else
    let ds := _build_supervised_dataset p lags
    match ds.getLast? with
    | none => .crash
    | some _ =>
      let sorted := sortByDate p
      let lastRow := sorted.getLastD dummyRow
      let recent := (sorted.map (fun r => r.aqi.numD 0)).drop (sorted.length - lags)
      let ctx : FCtx :=
        { lags := lags, quantiles := quantiles, futureMeteo := future_meteo,
          lastMax := lastRow.max_temp.numD 0, lastMin := lastRow.min_temp.numD 0,
          lastWind := lastRow.wind_speed.numD 0,
          lastDate := ((p.filterMap Row.date).max?).getD 0 }
      match forecastLoop M ctx recent 1 horizon with
      | none => .crash
      | some trace =>
        .ok (trace.map StepOut.point)
          { train_samples := ds.length, lags := lags, quantiles := quantiles,
            note := "未来气象特征采用持平假设（使用最近一天观测值）。" }

/-- One row after `pd.get_dummies(..., columns=["weather_simple","wind_direction"])`:
the numeric columns survive unchanged and each categorical value becomes
an indicator vector over the categories observed in the whole table. -/
structure EncodedRow where
  max_temp : Cell
  min_temp : Cell
  wind_speed : Cell
  aqi : Cell
  weatherInd : List Bool
  windDirInd : List Bool
deriving DecidableEq

/-- `pd.get_dummies` (analysis.py:153-158): one-hot encode the two
categorical columns.  Encoding is a per-row map, so the row count is
unchanged. -/
def get_dummies (rows : List Row) : List EncodedRow :=
  let wcats := (rows.map Row.weather_simple).dedup
  let dcats := (rows.filterMap Row.wind_direction).dedup
  rows.map (fun r =>
    { max_temp := r.max_temp, min_temp := r.min_temp, wind_speed := r.wind_speed,
      aqi := r.aqi,
      weatherInd := wcats.map (fun c => r.weather_simple == c),
      windDirInd := dcats.map (fun c => r.wind_direction == some c) })

/-- Result of `train_aqi_prediction_model`: the structured error dict or
the success payload produced by the (opaque) fit. -/
inductive TrainResult (α : Type) where
  | error (msg : String)
  | ok (payload : α)
deriving DecidableEq

/-- The error message of analysis.py:150. -/
def trainInsufficientMsg : String :=
  "数据不足（<30条），无法训练模型。"

/-- The error message of analysis.py:168. -/
def trainTooFewMsg : String :=
  "有效样本过少，无法训练模型。"

/-- `train_aqi_prediction_model` (analysis.py:136-189): preprocess,
guard on fewer than 30 rows, one-hot encode, guard again on the encoded
feature matrix, then run the (opaque) split/fit/score pipeline. -/
def train_aqi_prediction_model {α : Type} (fit : List EncodedRow → α) (df : List Row) :
    TrainResult α :=
  let dp := preprocess_data df
  if dp.length < 30 then .error trainInsufficientMsg
  else
    let X := get_dummies dp
    if X.length < 30 then .error trainTooFewMsg
    else .ok (fit X)

/-- The five ordinal temperature-bin labels of analysis.py:226. -/
def tempLabels : List String :=
  ["很低", "低", "中", "高", "很高"]

/-- The four ordinal wind-bin labels of analysis.py:233. -/
def windLabels : List String :=
  ["微风", "和风", "强风", "烈风"]

/-- The six bin edges `pd.cut(x, bins=5)` computes from the observed
range: equal-width edges, with pandas' 0.1% adjustments (widen a
degenerate range; otherwise lower the leftmost edge so the minimum is
included). -/
def tempBinEdges (mn mx : ℚ) : List ℚ :=
  if mn = mx then
    let lo := if mn = 0 then mn - 1 / 1000 else mn - |mn| / 1000
    let hi := if mx = 0 then mx + 1 / 1000 else mx + |mx| / 1000
    (List.range 6).map (fun i => lo + (hi - lo) * i / 5)
  else
    (mn - (mx - mn) / 1000) :: (List.range 5).map (fun i => mn + (mx - mn) * (i + 1) / 5)

/-- Right-closed interval lookup over a list of bin edges: the index `i`
with `edges[i] < x ≤ edges[i+1]`, or `none` when `x` falls outside. -/
def cutIndex (edges : List ℚ) (x : ℚ) : Option ℕ :=
  (List.range (edges.length - 1)).find?
    (fun i => decide (edges.getD i 0 < x) && decide (x ≤ edges.getD (i + 1) 0))

/-- `pd.cut(wind_speed, bins=[-0.1,2,4,6,12], include_lowest=True)`
(analysis.py:230-235): four fixed right-closed bins, the first closed on
the left as well. -/
def windBinIndex (x : ℚ) : Option ℕ :=
  if x < -(1 / 10) then none
  else if x ≤ 2 then some 0
  else if x ≤ 4 then some 1
  else if x ≤ 6 then some 2
  else if x ≤ 12 then some 3
  else none

/-- The observed (numeric) `max_temp` values of a table. -/
def maxTempVals (p : List Row) : List ℚ :=
  p.filterMap (fun r =>
    match r.max_temp with
    | .num q => some q
    | _ => none)

def listMinD (l : List ℚ) (d : ℚ) : ℚ :=
  match l with
  | [] => d
  | a :: t => t.foldl min a

def listMaxD (l : List ℚ) (d : ℚ) : ℚ :=
  match l with
  | [] => d
  | a :: t => t.foldl max a

def listMean (l : List ℚ) : ℚ :=
  l.sum / l.length

/-- `value_counts()` of `weather_simple`: distinct values in order of
first appearance, each with its count. -/
def weatherValueCounts (rows : List Row) : List (String × ℕ) :=
  ((rows.map Row.weather_simple).dedup).map
    (fun w => (w, rows.countP (fun r => r.weather_simple == w)))

/-- `value_counts().nlargest(6)` (analysis.py:237): a stable descending
sort by count, keeping the first six categories. -/
def topWeatherCats (rows : List Row) : List String :=
  ((isort (fun a b => Nat.ble b.2 a.2) (weatherValueCounts rows)).take 6).map Prod.fst

/-- One record emitted for the heatmap (analysis.py:249-255). -/
structure HeatRecord where
  temp_bin : String
  wind_bin : String
  weather_simple : String
  aqi : ℚ
deriving DecidableEq

/-- The aqi values of the rows falling in the `(t, w, ws)` cell: weather
category `ws`, temperature bin `t` under `edges`, wind bin `w`. -/
def cellMembers (p : List Row) (edges : List ℚ) (t w : ℕ) (ws : String) : List ℚ :=
  (p.filter (fun r =>
      r.weather_simple == ws
        && cutIndex edges (r.max_temp.numD 0) == some t
        && windBinIndex (r.wind_speed.numD 0) == some w)).map
    (fun r => r.aqi.numD 0)

/-- The 5 × 4 × (top weather categories) grid the grouped aggregation
ranges over (categorical groupers enumerate all their levels; empty
cells are removed afterwards by `.dropna()`). -/
def heatGrid (top : List String) : List (ℕ × ℕ × String) :=
  (List.range 5).flatMap (fun t =>
    (List.range 4).flatMap (fun w =>
      top.map (fun ws => (t, w, ws))))

/-- The temperature bin edges computed from the observed range of
`max_temp` over the whole preprocessed table (analysis.py:223-228). -/
def heatEdges (p : List Row) : List ℚ :=
  tempBinEdges (listMinD (maxTempVals p) 0) (listMaxD (maxTempVals p) 0)

/-- `analyze_multi_factor_relationship` (analysis.py:216-258): preprocess,
bin temperature into 5 equal-width bins and wind speed into 4 fixed bins,
keep the 6 most frequent weather categories, and emit the mean aqi of
every non-empty cell.  The record order of the list is abstracted (the
claims under verification are order-independent). -/
def analyze_multi_factor_relationship (df : List Row) : List HeatRecord :=
  let p := preprocess_data df
  if p.isEmpty then []
  else
    let top := topWeatherCats p
    (heatGrid top).filterMap (fun twc =>
      let ms := cellMembers p (heatEdges p) twc.1 twc.2.1 twc.2.2
      if ms.isEmpty then none
      else some { temp_bin := tempLabels.getD twc.1 "", wind_bin := windLabels.getD twc.2.1 "",
                  weather_simple := twc.2.2, aqi := listMean ms })

theorem toNumeric_idem (c : Cell) : (Cell.toNumeric c).toNumeric = c.toNumeric := by
  cases c with
  | na => rfl
  | num q => rfl
  | str s =>
    simp only [Cell.toNumeric]
    cases parseNumericString s with
    | none => rfl
    | some q => rfl

theorem enrichDerived_fix (r : Row) : enrichDerived (enrichRow r) = enrichRow r := by
  unfold enrichRow coerceNumeric enrichDerived
  cases hs : (_extract_wind_speed_and_direction r.wind).1 with
  | none => simp [hs, Cell.toNumeric]
  | some k => simp [hs, Cell.toNumeric]

theorem coerceNumeric_enrichRow_fix (r : Row) :
    coerceNumeric (enrichRow r) = enrichRow r := by
  unfold enrichRow coerceNumeric
  simp [toNumeric_idem]

theorem enrichRow_idem (r : Row) : enrichRow (enrichRow r) = enrichRow r := by
  conv_lhs => rw [enrichRow, enrichDerived_fix]
  exact coerceNumeric_enrichRow_fix r

theorem keepRow_enrichRow (r : Row) (h : keepRow r = true) :
    keepRow (enrichRow r) = true := by
  unfold keepRow at *
  rw [Bool.and_eq_true] at h
  rw [enrichDerived_fix, coerceNumeric_enrichRow_fix]
  rw [Bool.and_eq_true]
  exact ⟨h.2, h.2⟩

/-- C5: every row surviving `preprocess_data` has numeric values in all
four key columns (`max_temp`, `min_temp`, `wind_speed`, `aqi`), and the
output is a filter of the input followed by a per-row transformation, so
the surviving rows keep their relative input order; the function is pure,
so the caller's table is unchanged. -/
theorem C5_preprocess_clean_and_ordered (df : List Row) :
    ((preprocess_data df).all rowNumericOk) = true
      ∧ preprocess_data df = (df.filter keepRow).map enrichRow := by
  refine ⟨?_, preprocess_eq_filter_map df⟩
  rw [preprocess_eq_filter_map]
  rw [List.all_eq_true]
  intro x hx
  rw [List.mem_map] at hx
  obtain ⟨r, hr, rfl⟩ := hx
  have hk := List.of_mem_filter hr
  unfold keepRow at hk
  rw [Bool.and_eq_true] at hk
  have h2 := hk.2
  unfold dropnaKey at h2
  rw [Bool.not_eq_true'] at h2
  simp only [Bool.or_eq_false_iff] at h2
  obtain ⟨⟨⟨hmx, hmn⟩, hws⟩, haqi⟩ := h2
  unfold rowNumericOk enrichRow coerceNumeric at *
  simp only [Bool.and_eq_true]
  refine ⟨⟨⟨?_, ?_⟩, ?_⟩, ?_⟩
  · exact toNumeric_isNum_of_not_isna _ hmx
  · exact toNumeric_isNum_of_not_isna _ hmn
  · exact toNumeric_isNum_of_not_isna _ hws
  · exact toNumeric_isNum_of_not_isna _ haqi

/-- C6: `preprocess_data` is idempotent — applying it to its own output
drops no further rows and changes no value: the derived columns are
recomputed from the unchanged `wind`/`weather` fields, the numeric
coercion is idempotent, and the date column is already parsed. -/
theorem C6_preprocess_idempotent (df : List Row) :
    preprocess_data (preprocess_data df) = preprocess_data df := by
  rw [preprocess_eq_filter_map (preprocess_data df), preprocess_eq_filter_map df]
  rw [List.filter_map, List.map_map]
  have hfix : (df.filter keepRow).filter (keepRow ∘ enrichRow) = df.filter keepRow := by
    apply List.filter_eq_self.mpr
    intro r hr
    exact keepRow_enrichRow r (List.of_mem_filter hr)
  rw [hfix]
  apply List.map_congr_left
  intro r _
  exact enrichRow_idem r

/-- C7: `train_aqi_prediction_model` returns the structured
insufficient-data error exactly when fewer than 30 rows remain after
preprocessing (so no model is fit), and whenever fewer than 30 rows
survive one-hot encoding the call likewise returns that same
insufficient-data error (encoding preserves the row count, so this is
the same condition); otherwise the fit runs and an `ok` payload is
returned. -/
theorem C7_train_guards {α : Type} (fit : List EncodedRow → α) (df : List Row) :
    (train_aqi_prediction_model fit df = .error trainInsufficientMsg
        ↔ (preprocess_data df).length < 30)
  ∧ ((get_dummies (preprocess_data df)).length < 30 →
        train_aqi_prediction_model fit df = .error trainInsufficientMsg)
  ∧ (¬ (preprocess_data df).length < 30 →
        train_aqi_prediction_model fit df = .ok (fit (get_dummies (preprocess_data df)))) := by
  have hlen : (get_dummies (preprocess_data df)).length = (preprocess_data df).length := by
    unfold get_dummies
    simp
  unfold train_aqi_prediction_model
  by_cases h : (preprocess_data df).length < 30
  · simp [h]
  · have h2 : ¬ (get_dummies (preprocess_data df)).length < 30 := by
      rw [hlen]; exact h
    simp [h, h2]

/-- C7 witness: the empty table has 0 preprocessed rows, so training
returns the insufficient-data error. -/
theorem C7_train_guards_witness :
    train_aqi_prediction_model (fun x => x.length) ([] : List Row)
      = .error trainInsufficientMsg :=
  (C7_train_guards (fun x => x.length) []).1.mpr (by with_unfolding_all decide)

/-- C10: one-hot encoding never removes rows, so the feature matrix has
exactly as many rows as the preprocessed table; consequently the second
insufficient-data branch of `train_aqi_prediction_model` is dead code —
every call returns either the first guard's error or an `ok` payload,
never the second guard's message. -/
theorem C10_second_guard_dead {α : Type} (fit : List EncodedRow → α) (df : List Row) :
    (get_dummies (preprocess_data df)).length = (preprocess_data df).length
  ∧ (train_aqi_prediction_model fit df = .error trainInsufficientMsg
      ∨ ∃ a, train_aqi_prediction_model fit df = .ok a) := by
  have hlen : (get_dummies (preprocess_data df)).length = (preprocess_data df).length := by
    unfold get_dummies
    simp
  refine ⟨hlen, ?_⟩
  unfold train_aqi_prediction_model
  by_cases h : (preprocess_data df).length < 30
  · left
    simp [h]
  · right
    have h2 : ¬ (get_dummies (preprocess_data df)).length < 30 := by
      rw [hlen]; exact h
    refine ⟨fit (get_dummies (preprocess_data df)), ?_⟩
    simp [h, h2]

/-- C3: the emitted confidence score equals the spec's
`max(0, min(1, 1 − (p90 − p10)/120))` for all inputs (the code's
pre-clamping of the width is absorbed by the outer clamps, also when
`p90 < p10`), a zero-width interval scores 1, an interval of width at
least 120 scores 0, and the score always lies in `[0, 1]`. -/
theorem C3_confidence_formula (p10 p90 : ℚ) :
    confidenceOfInterval p10 p90 = confidenceSpecFormula p10 p90
  ∧ confidenceSpecFormula p10 p10 = 1
  ∧ (120 ≤ p90 - p10 → confidenceOfInterval p10 p90 = 0)
  ∧ 0 ≤ confidenceOfInterval p10 p90
  ∧ confidenceOfInterval p10 p90 ≤ 1 := by
  unfold confidenceOfInterval confidenceSpecFormula intervalWidth
  refine ⟨?_, by norm_num, ?_, le_max_left 0 _, ?_⟩
  · rcases le_total 0 (p90 - p10) with h | h
    · rw [max_eq_right h]
    · rw [max_eq_left h]
      have h1 : (1 : ℚ) ≤ 1 - (p90 - p10) / 120 := by
        have : (p90 - p10) / 120 ≤ 0 := div_nonpos_iff.mpr (Or.inr ⟨h, by norm_num⟩)
        linarith
      rw [min_eq_left h1]
      norm_num
  · intro h
    have hw : max 0 (p90 - p10) = p90 - p10 := max_eq_right (by linarith)
    rw [hw]
    have h1 : 1 - (p90 - p10) / 120 ≤ 0 := by
      have : (1 : ℚ) ≤ (p90 - p10) / 120 := by
        rw [le_div_iff₀ (by norm_num : (0:ℚ) < 120)]
        linarith
      linarith
    have h2 : min 1 (1 - (p90 - p10) / 120) ≤ 0 := le_trans (min_le_right _ _) h1
    exact max_eq_left h2
  · exact max_le (by norm_num) (le_trans (min_le_left _ _) le_rfl)

/-- C3 witness: at `(p10, p90) = (0, 150)` the code's confidence equals
the spec formula and, the width being at least 120, is 0. -/
theorem C3_confidence_formula_witness :
    confidenceOfInterval 0 150 = confidenceSpecFormula 0 150
  ∧ confidenceOfInterval 0 150 = 0 :=
  ⟨(C3_confidence_formula 0 150).1,
   (C3_confidence_formula 0 150).2.2.1 (by with_unfolding_all decide)⟩

theorem aqi_level_details_eval (q : ℚ) (n : ℤ) (h : pyRound q = n) :
    _aqi_level_details (some q)
      = if n ≤ 50 then levelGood
        else if n ≤ 100 then levelModerate
        else if n ≤ 150 then levelLight
        else if n ≤ 200 then levelMedium
        else if n ≤ 300 then levelHeavy
        else levelSevere := by
  show (let a := pyRound q;
    if a ≤ 50 then levelGood
    else if a ≤ 100 then levelModerate
    else if a ≤ 150 then levelLight
    else if a ≤ 200 then levelMedium
    else if a ≤ 300 then levelHeavy
    else levelSevere) = _
  rw [h]

/-- C8: the AQI level classifier rounds its input and buckets with
inclusive upper bounds 50/100/150/200/300: the boundary inputs
50, 51, 100, 101, 150, 151, 200, 201, 300, 301 land in the expected six
tiers with their fixed colours and tips, a missing (None/NaN) input maps
to the unknown category, and a fractional input such as 50.4 is rounded
before bucketing. -/
theorem C8_aqi_level_boundaries :
    _aqi_level_details (some 50) = levelGood
  ∧ _aqi_level_details (some 51) = levelModerate
  ∧ _aqi_level_details (some 100) = levelModerate
  ∧ _aqi_level_details (some 101) = levelLight
  ∧ _aqi_level_details (some 150) = levelLight
  ∧ _aqi_level_details (some 151) = levelMedium
  ∧ _aqi_level_details (some 200) = levelMedium
  ∧ _aqi_level_details (some 201) = levelHeavy
  ∧ _aqi_level_details (some 300) = levelHeavy
  ∧ _aqi_level_details (some 301) = levelSevere
  ∧ _aqi_level_details none = levelUnknown
  ∧ _aqi_level_details (some (252 / 5)) = levelGood := by
  refine ⟨?_, ?_, ?_, ?_, ?_, ?_, ?_, ?_, ?_, ?_, rfl, ?_⟩
  · rw [aqi_level_details_eval 50 50 (by with_unfolding_all decide)]; norm_num
  · rw [aqi_level_details_eval 51 51 (by with_unfolding_all decide)]; norm_num
  · rw [aqi_level_details_eval 100 100 (by with_unfolding_all decide)]; norm_num
  · rw [aqi_level_details_eval 101 101 (by with_unfolding_all decide)]; norm_num
  · rw [aqi_level_details_eval 150 150 (by with_unfolding_all decide)]; norm_num
  · rw [aqi_level_details_eval 151 151 (by with_unfolding_all decide)]; norm_num
  · rw [aqi_level_details_eval 200 200 (by with_unfolding_all decide)]; norm_num
  · rw [aqi_level_details_eval 201 201 (by with_unfolding_all decide)]; norm_num
  · rw [aqi_level_details_eval 300 300 (by with_unfolding_all decide)]; norm_num
  · rw [aqi_level_details_eval 301 301 (by with_unfolding_all decide)]; norm_num
  · rw [aqi_level_details_eval (252 / 5) 50 (by with_unfolding_all decide)]; norm_num

/-- A fully-populated row: every column (date, the raw columns, and the
derived columns) holds a value, so only the lag/label shifts can
introduce missing values downstream. -/
def rowComplete (r : Row) : Bool :=
  r.date.isSome && !r.max_temp.isna && !r.min_temp.isna && !r.weather.isna
    && !r.wind.isna && !r.aqi.isna && !r.wind_speed.isna && r.wind_direction.isSome

theorem complete_getD (sorted : List Row) (i : ℕ) (hi : i < sorted.length)
    (hc : ∀ r ∈ sorted, rowComplete r = true) :
    rowComplete (sorted.getD i dummyRow) = true := by
  rw [List.getD_eq_getElem sorted dummyRow hi]
  exact hc _ (List.getElem_mem hi)

theorem srowHasNA_mkSRow (sorted : List Row) (L j : ℕ) (hj : j < sorted.length)
    (hc : ∀ r ∈ sorted, rowComplete r = true) :
    (!srowHasNA (mkSRow sorted L j)) = (decide (L ≤ j) && decide (j + 1 < sorted.length)) := by
  have hcj := complete_getD sorted j hj hc
  simp only [rowComplete, Bool.and_eq_true, Bool.not_eq_true'] at hcj
  obtain ⟨⟨⟨⟨⟨⟨⟨hdate, hmx⟩, hmn⟩, hwe⟩, hwi⟩, haqi⟩, hws⟩, hdir⟩ := hcj
  obtain ⟨d, hd⟩ := Option.isSome_iff_exists.mp hdate
  by_cases hL : L ≤ j
  · by_cases hj1 : j + 1 < sorted.length
    · have hlag2 : ∀ i0 < L,
          (if i0 + 1 ≤ j then (sorted.getD (j - (i0 + 1)) dummyRow).aqi
           else Cell.na).isna = false := by
        intro i0 hi0
        rw [if_pos (by omega)]
        have hclt := complete_getD sorted (j - (i0 + 1)) (by omega) hc
        simp only [rowComplete, Bool.and_eq_true, Bool.not_eq_true'] at hclt
        exact hclt.1.1.2
      have hnext := complete_getD sorted (j + 1) hj1 hc
      simp only [rowComplete, Bool.and_eq_true, Bool.not_eq_true'] at hnext
      simp only [srowHasNA, mkSRow]
      simp [← List.getD_eq_getElem?_getD, hd, hmx, hmn, hwe, hwi, haqi, hws, hdir,
        if_pos hj1, hnext.1.1.2, hL, hj1]
      intro a ha
      exact hlag2 a ha
    · have hnext : (mkSRow sorted L j).aqi_next.isna = true := by
        show (if j + 1 < sorted.length then (sorted.getD (j + 1) dummyRow).aqi
              else Cell.na).isna = true
        rw [if_neg hj1]
        rfl
      have hna : srowHasNA (mkSRow sorted L j) = true := by
        unfold srowHasNA
        simp only [Bool.or_eq_true]
        exact Or.inr hnext
      simp [hna, hj1]
  · have hjL : j < L := by omega
    have hlag : (mkSRow sorted L j).lagBlock.any Cell.isna = true := by
      show (((List.range L).map (fun i0 =>
          if i0 + 1 ≤ j then (sorted.getD (j - (i0 + 1)) dummyRow).aqi
          else Cell.na)).any Cell.isna) = true
      rw [List.any_eq_true]
      refine ⟨Cell.na, ?_, rfl⟩
      rw [List.mem_map]
      exact ⟨j, by rw [List.mem_range]; omega, by rw [if_neg (by omega)]⟩
    have hna : srowHasNA (mkSRow sorted L j) = true := by
      unfold srowHasNA
      simp only [Bool.or_eq_true]
      exact Or.inl (Or.inl (Or.inl (Or.inr hlag)))
    simp [hna, hL]

theorem drop_len_append (l1 l2 : List α) (k : ℕ) (h : l1.length = k) :
    (l1 ++ l2).drop k = l2 := by
  subst h
  exact List.drop_left l1 l2

theorem range_decomp (n L : ℕ) (h : L + 1 < n) :
    List.range n = (List.range' 0 L ++ List.range' L (n - 1 - L)) ++ [n - 1] := by
  have e1 : List.range' 0 L ++ List.range' (0 + 1 * L) (n - 1 - L) 1
      = List.range' 0 (n - 1 - L + L) := List.range'_append 0 L (n - 1 - L) 1
  have e2 : List.range' 0 (n - 1) ++ List.range' (0 + 1 * (n - 1)) 1 1
      = List.range' 0 (1 + (n - 1)) := List.range'_append 0 (n - 1) 1 1
  simp only [Nat.zero_add, Nat.one_mul] at e1 e2
  have h1 : n - 1 - L + L = n - 1 := by omega
  have h2 : 1 + (n - 1) = n := by omega
  rw [h1] at e1
  rw [h2] at e2
  rw [List.range_eq_range', ← e2, ← e1]
  rfl

theorem range_filter_window (n L : ℕ) (h : L + 1 < n) :
    (List.range n).filter (fun j => decide (L ≤ j) && decide (j + 1 < n))
      = List.range' L (n - 1 - L) := by
  rw [range_decomp n L h, List.filter_append, List.filter_append]
  have hA : (List.range' 0 L).filter (fun j => decide (L ≤ j) && decide (j + 1 < n)) = [] := by
    rw [List.filter_eq_nil_iff]
    intro a ha
    rw [List.mem_range'] at ha
    obtain ⟨i, hi, rfl⟩ := ha
    simp
    omega
  have hB : (List.range' L (n - 1 - L)).filter (fun j => decide (L ≤ j) && decide (j + 1 < n))
      = List.range' L (n - 1 - L) := by
    rw [List.filter_eq_self]
    intro a ha
    rw [List.mem_range'] at ha
    obtain ⟨i, hi, rfl⟩ := ha
    simp
    omega
  have hC : ([n - 1] : List ℕ).filter (fun j => decide (L ≤ j) && decide (j + 1 < n)) = [] := by
    rw [List.filter_eq_nil_iff]
    intro a ha
    rw [List.mem_singleton] at ha
    subst ha
    simp
    omega
  rw [hA, hB, hC, List.nil_append, List.append_nil]

/-- C4: on a fully-populated table with `n > L + 1` rows,
`_build_supervised_dataset` sorts by date ascending and drops exactly the
first `L` rows and the last row of the sorted table — the rows whose lag
block or label is unresolved — leaving exactly `n − L − 1` fully-populated
supervised rows (the list representation makes the reset, contiguous
index implicit). -/
theorem C4_supervised_shape (df : List Row) (L : ℕ)
    (hn : L + 1 < df.length) (hc : ∀ r ∈ df, rowComplete r = true) :
    (_build_supervised_dataset df L).length = df.length - L - 1
  ∧ _build_supervised_dataset df L
      = (((List.range (sortByDate df).length).map (mkSRow (sortByDate df) L)).drop L).dropLast
  ∧ (_build_supervised_dataset df L).all (fun s => !srowHasNA s) = true
  ∧ (sortByDate df).Pairwise (fun a b => rowDateLE a b = true) := by
  have hlen : (sortByDate df).length = df.length := length_isort _ df
  have hcs : ∀ r ∈ sortByDate df, rowComplete r = true :=
    fun r hr => hc r ((mem_isort _ _ _).mp hr)
  have hn' : L + 1 < (sortByDate df).length := by omega
  have hfilter : _build_supervised_dataset df L
      = ((List.range (sortByDate df).length).filter
            (fun j => decide (L ≤ j) && decide (j + 1 < (sortByDate df).length))).map
          (mkSRow (sortByDate df) L) := by
    unfold _build_supervised_dataset
    rw [List.filter_map]
    congr 1
    apply List.filter_congr
    intro j hj
    rw [List.mem_range] at hj
    exact srowHasNA_mkSRow (sortByDate df) L j hj hcs
  rw [range_filter_window _ _ hn'] at hfilter
  refine ⟨?_, ?_, ?_, pairwise_isort rowDateLE rowDateLE_total rowDateLE_trans df⟩
  · rw [hfilter, List.length_map, List.length_range']
    omega
  · rw [hfilter, range_decomp _ _ hn']
    rw [List.map_append, List.map_append]
    rw [List.append_assoc]
    rw [drop_len_append _ _ L (by rw [List.length_map, List.length_range'])]
    rw [List.map_singleton, List.dropLast_concat]
  · unfold _build_supervised_dataset
    rw [List.all_eq_true]
    intro s hs
    exact (List.mem_filter.mp hs).2

theorem distinctDates_le_length (p : List Row) : distinctDates p ≤ p.length :=
  le_trans (List.Sublist.length_le (List.dedup_sublist _)) (List.length_filterMap_le _ _)

theorem stepCompute_eq_some (M : QModel) (ctx : FCtx) (recent : List ℚ) (step : ℕ)
    (hlen : ctx.lags ≤ recent.length) (q0 : ℚ) (qs : List ℚ) (hqs : ctx.quantiles = q0 :: qs) :
    ∃ out, stepCompute M ctx recent step = some out := by
  have hfeat : ∃ feat, stepFeatures ctx recent step = some feat := by
    unfold stepFeatures buildLagBlock
    rw [if_pos hlen]
    exact ⟨_, rfl⟩
  obtain ⟨feat, hfeat⟩ := hfeat
  have hp50 : ∃ p50, pickP50 M ctx.quantiles feat = some p50 := by
    unfold pickP50
    rw [hqs]
    exact ⟨_, rfl⟩
  obtain ⟨p50, hp50⟩ := hp50
  unfold stepCompute
  simp only [hfeat, hp50]
  exact ⟨_, rfl⟩

theorem forecastLoop_isSome (M : QModel) (ctx : FCtx) (hq : ctx.quantiles ≠ []) :
    ∀ (fuel : ℕ) (recent : List ℚ) (step : ℕ), ctx.lags ≤ recent.length →
      (forecastLoop M ctx recent step fuel).isSome = true := by
  obtain ⟨q0, qs, hqs⟩ : ∃ q0 qs, ctx.quantiles = q0 :: qs := by
    cases hq2 : ctx.quantiles with
    | nil => exact absurd hq2 hq
    | cons a l => exact ⟨a, l, rfl⟩
  intro fuel
  induction fuel with
  | zero => intro recent step _; rfl
  | succ f ih =>
    intro recent step hlen
    obtain ⟨out, hout⟩ := stepCompute_eq_some M ctx recent step hlen q0 qs hqs
    have hnext := ih (recent ++ [out.p50]) (step + 1)
      (by rw [List.length_append]; simp; omega)
    obtain ⟨rest, hrest⟩ := Option.isSome_iff_exists.mp hnext
    unfold forecastLoop
    simp only [hout, hrest]
    rfl

/-- C1 (amended): `forecast_aqi_7_days` returns the structured
insufficient-data error naming the `L + 30` minimum exactly when the
preprocessed input has fewer than `L + 30` distinct valid dates (and
never raises for that condition); otherwise — provided the quantile list
is non-empty and at least one supervised training row survives the
lag/label `dropna` — it returns the success payload.  (With an empty
quantile list and a positive horizon, or with an empty supervised
dataset, the Python code raises instead of returning.) -/
theorem C1_forecast_guard (M : QModel) (df : List Row) (horizon lags : ℕ)
    (quantiles : List ℚ) (fm : List Meteo) :
    (forecast_aqi_7_days M df horizon lags quantiles fm
        = .error (insufficientForecastMsg (lags + 30))
      ↔ distinctDates (preprocess_data df) < lags + 30)
  ∧ (lags + 30 ≤ distinctDates (preprocess_data df) → quantiles ≠ [] →
      _build_supervised_dataset (preprocess_data df) lags ≠ [] →
      ∃ pts info, forecast_aqi_7_days M df horizon lags quantiles fm = .ok pts info) := by
  by_cases hg : distinctDates (preprocess_data df) < lags + 30
  · constructor
    · unfold forecast_aqi_7_days
      simp only [if_pos hg]
      exact ⟨fun _ => hg, fun _ => trivial⟩
    · intro h
      omega
  · have hres : forecast_aqi_7_days M df horizon lags quantiles fm = .crash
        ∨ ∃ pts info, forecast_aqi_7_days M df horizon lags quantiles fm = .ok pts info := by
      unfold forecast_aqi_7_days
      simp only [if_neg hg]
      cases hds : (_build_supervised_dataset (preprocess_data df) lags).getLast? with
      | none => left; rfl
      | some lastEntry =>
        cases hloop : forecastLoop M
            { lags := lags, quantiles := quantiles, futureMeteo := fm,
              lastMax := ((sortByDate (preprocess_data df)).getLastD dummyRow).max_temp.numD 0,
              lastMin := ((sortByDate (preprocess_data df)).getLastD dummyRow).min_temp.numD 0,
              lastWind := ((sortByDate (preprocess_data df)).getLastD dummyRow).wind_speed.numD 0,
              lastDate := (((preprocess_data df).filterMap Row.date).max?).getD 0 }
            (((sortByDate (preprocess_data df)).map (fun r => r.aqi.numD 0)).drop
              ((sortByDate (preprocess_data df)).length - lags)) 1 horizon with
        | none => left; rfl
        | some trace => right; exact ⟨_, _, rfl⟩
    constructor
    · constructor
      · intro h
        rcases hres with hcr | ⟨pts, info, hok⟩
        · rw [h] at hcr
          exact ForecastResult.noConfusion hcr
        · rw [h] at hok
          exact ForecastResult.noConfusion hok
      · intro h
        omega
    · intro hge hq hds
      have hplen : lags ≤ (preprocess_data df).length := by
        have := distinctDates_le_length (preprocess_data df)
        omega
      have hsortlen : (sortByDate (preprocess_data df)).length = (preprocess_data df).length :=
        length_isort _ _
      unfold forecast_aqi_7_days
      simp only [if_neg hg]
      obtain ⟨lastEntry, hlast⟩ :
          ∃ y, (_build_supervised_dataset (preprocess_data df) lags).getLast? = some y := by
        cases hX : (_build_supervised_dataset (preprocess_data df) lags).getLast? with
        | none => exact absurd (List.getLast?_eq_none_iff.mp hX) hds
        | some y => exact ⟨y, rfl⟩
      rw [hlast]
      have hlooplen : lags ≤ (((sortByDate (preprocess_data df)).map (fun r => r.aqi.numD 0)).drop
          ((sortByDate (preprocess_data df)).length - lags)).length := by
        rw [List.length_drop, List.length_map]
        omega
      have hloop := forecastLoop_isSome M
        { lags := lags, quantiles := quantiles, futureMeteo := fm,
          lastMax := ((sortByDate (preprocess_data df)).getLastD dummyRow).max_temp.numD 0,
          lastMin := ((sortByDate (preprocess_data df)).getLastD dummyRow).min_temp.numD 0,
          lastWind := ((sortByDate (preprocess_data df)).getLastD dummyRow).wind_speed.numD 0,
          lastDate := (((preprocess_data df).filterMap Row.date).max?).getD 0 }
        hq horizon
        (((sortByDate (preprocess_data df)).map (fun r => r.aqi.numD 0)).drop
          ((sortByDate (preprocess_data df)).length - lags)) 1 hlooplen
      obtain ⟨trace, htrace⟩ := Option.isSome_iff_exists.mp hloop
      rw [htrace]
      exact ⟨_, _, rfl⟩

/-- A clean daily observation used for concrete instances: valid date
`i`, numeric temperatures and aqi, parseable weather and wind strings. -/
def mkR (i : ℕ) : Row :=
  { date := some (i : ℤ), max_temp := .num 20, min_temp := .num 10,
    weather := .str "晴", wind := .str "东北风3级", aqi := .num 80 }

/-- 31 consecutive clean daily rows (distinct dates 0..30). -/
def cDf : List Row :=
  (List.range 31).map mkR

/-- A concrete opaque model: every quantile predicts 0. -/
def Mzero : QModel :=
  fun _ _ => 0

/-- C1 witness: on 31 clean rows with lag count 1, horizon 2 and
quantile list `[0.5]`, the guard passes and the call returns the success
payload. -/
theorem C1_forecast_guard_witness :
    ∃ pts info, forecast_aqi_7_days Mzero cDf 2 1 [1 / 2] [] = .ok pts info :=
  (C1_forecast_guard Mzero cDf 2 1 [1 / 2] []).2
    (by with_unfolding_all decide)
    (by with_unfolding_all decide)
    (by with_unfolding_all decide)

/-- C1 counterexample: with an empty quantile list (allowed by the
claim's universal quantification over quantile lists) and sufficient
data — 31 ≥ 1 + 30 distinct dates — the call neither returns the error
nor the success payload: it raises an IndexError (the eagerly evaluated
`list(preds.values())[0]` on an empty dict), modelled as `.crash`. -/
theorem C1_forecast_guard_cex :
    1 + 30 ≤ distinctDates (preprocess_data cDf)
  ∧ forecast_aqi_7_days Mzero cDf 1 1 [] [] = ForecastResult.crash := by
  constructor
  · with_unfolding_all decide
  · with_unfolding_all decide

/-- C4 witness: the preprocessed 3-row clean table with lag count 1
yields exactly 3 − 1 − 1 = 1 fully-populated supervised row. -/
theorem C4_supervised_shape_witness :
    (_build_supervised_dataset (preprocess_data [mkR 0, mkR 1, mkR 2]) 1).length = 1
  ∧ (_build_supervised_dataset (preprocess_data [mkR 0, mkR 1, mkR 2]) 1).all
      (fun s => !srowHasNA s) = true :=
  ⟨((C4_supervised_shape (preprocess_data [mkR 0, mkR 1, mkR 2]) 1
        (by with_unfolding_all decide) (by with_unfolding_all decide)).1).trans
      (by with_unfolding_all decide),
   (C4_supervised_shape (preprocess_data [mkR 0, mkR 1, mkR 2]) 1
        (by with_unfolding_all decide) (by with_unfolding_all decide)).2.2.1⟩

/-- The state of `recent_aqi` as the loop begins step `k` (0-based):
the initial window plus the point forecasts of the completed steps. -/
def recentAt (recent : List ℚ) (trace : List StepOut) (k : ℕ) : List ℚ :=
  recent ++ (trace.take k).map StepOut.p50

theorem forecastLoop_step (M : QModel) (ctx : FCtx) :
    ∀ (fuel : ℕ) (recent : List ℚ) (step : ℕ) (trace : List StepOut),
      forecastLoop M ctx recent step fuel = some trace →
      ∀ k, k < trace.length →
        stepCompute M ctx (recentAt recent trace k) (step + k)
          = some (trace.getD k dummyStep) := by
  intro fuel
  induction fuel with
  | zero =>
    intro recent step trace h k hk
    unfold forecastLoop at h
    injection h with h
    subst h
    simp at hk
  | succ f ih =>
    intro recent step trace h k hk
    unfold forecastLoop at h
    cases hout : stepCompute M ctx recent step with
    | none =>
      rw [hout] at h
      exact Option.noConfusion h
    | some out =>
      rw [hout] at h
      simp only at h
      cases hrec : forecastLoop M ctx (recent ++ [out.p50]) (step + 1) f with
      | none =>
        rw [hrec] at h
        exact Option.noConfusion h
      | some rest =>
        rw [hrec] at h
        simp only at h
        injection h with h
        subst h
        cases k with
        | zero =>
          simpa [recentAt] using hout
        | succ k2 =>
          have hk2 : k2 < rest.length := by simpa using hk
          have hstep := ih (recent ++ [out.p50]) (step + 1) rest hrec k2 hk2
          have heq : recentAt (recent ++ [out.p50]) rest k2
              = recentAt recent (out :: rest) (k2 + 1) := by
            simp [recentAt, List.take_succ_cons]
          have harith : step + 1 + k2 = step + (k2 + 1) := by omega
          rw [heq, harith] at hstep
          simpa [List.getD_cons_succ] using hstep

theorem getD_concat_length (xs : List ℚ) (a d : ℚ) : (xs ++ [a]).getD xs.length d = a := by
  induction xs with
  | nil => rfl
  | cons x t ih =>
    rw [List.cons_append, List.length_cons, List.getD_cons_succ]
    exact ih

theorem lagBlockOf_headD (L : ℕ) (hL : 1 ≤ L) (rc : List ℚ) :
    (lagBlockOf L rc).headD 0 = rc.getD (rc.length - 1) 0 := by
  unfold lagBlockOf
  cases L with
  | zero => omega
  | succ L2 =>
    rw [List.range_eq_range', List.range'_succ]
    simp

theorem recentAt_succ (recent : List ℚ) (trace : List StepOut) (k : ℕ)
    (hk : k < trace.length) :
    recentAt recent trace (k + 1) = recentAt recent trace k ++ [(trace.getD k dummyStep).p50] := by
  unfold recentAt
  have h1 : trace.take (k + 1) = trace.take k ++ [trace.getD k dummyStep] := by
    rw [List.take_succ, List.getElem?_eq_getElem hk, List.getD_eq_getElem trace dummyStep hk]
    rfl
  rw [h1]
  simp

theorem stepCompute_elim (M : QModel) (ctx : FCtx) (rc : List ℚ) (s : ℕ) (e : StepOut)
    (h : stepCompute M ctx rc s = some e) :
    e.feat.lagBlock = lagBlockOf ctx.lags rc
    ∧ ∃ q0 qs, ctx.quantiles = q0 :: qs
      ∧ e.p50 = (if (1 : ℚ) / 2 ∈ ctx.quantiles then M (1 / 2) e.feat else M q0 e.feat) := by
  unfold stepCompute stepFeatures buildLagBlock at h
  by_cases hlen : ctx.lags ≤ rc.length
  · rw [if_pos hlen] at h
    simp only at h
    cases hqs : ctx.quantiles with
    | nil =>
      rw [pickP50.eq_def, hqs] at h
      simp at h
    | cons q0 qs =>
      rw [pickP50.eq_def, hqs] at h
      simp only at h
      injection h with h
      subst h
      exact ⟨rfl, q0, qs, rfl, rfl⟩
  · rw [if_neg hlen] at h
    exact Option.noConfusion h

/-- C2: in the recursive forecast loop, every step's feature vector takes
its lag block as `[recentAqi[-1], ..., recentAqi[-L]]` (most recent
first) from the current `recent_aqi` state, the step's point forecast is
the q = 0.5 model's prediction (or the first requested quantile's when
0.5 is absent) and is appended to `recent_aqi` before the next step, so
from the second step on the `aqi_lag_1` feature equals the previous
step's point forecast — the trained quantile models being opaque
functions. -/
theorem C2_recursive_feedback (M : QModel) (ctx : FCtx) (recent : List ℚ)
    (horizon : ℕ) (trace : List StepOut)
    (hloop : forecastLoop M ctx recent 1 horizon = some trace) (hL : 1 ≤ ctx.lags) :
    (∀ k, k < trace.length →
        (trace.getD k dummyStep).feat.lagBlock = lagBlockOf ctx.lags (recentAt recent trace k)
      ∧ (trace.getD k dummyStep).p50
          = (if (1 : ℚ) / 2 ∈ ctx.quantiles
             then M (1 / 2) ((trace.getD k dummyStep).feat)
             else M (ctx.quantiles.headD 0) ((trace.getD k dummyStep).feat)))
  ∧ (∀ k, k + 1 < trace.length →
      (trace.getD (k + 1) dummyStep).feat.lagBlock.headD 0
        = (trace.getD k dummyStep).p50) := by
  have hmain : ∀ k, k < trace.length →
      (trace.getD k dummyStep).feat.lagBlock = lagBlockOf ctx.lags (recentAt recent trace k)
    ∧ (trace.getD k dummyStep).p50
        = (if (1 : ℚ) / 2 ∈ ctx.quantiles
           then M (1 / 2) ((trace.getD k dummyStep).feat)
           else M (ctx.quantiles.headD 0) ((trace.getD k dummyStep).feat)) := by
    intro k hk
    have hstep := forecastLoop_step M ctx horizon recent 1 trace hloop k hk
    obtain ⟨hlag, q0, qs, hqs, hp50⟩ := stepCompute_elim M ctx _ _ _ hstep
    refine ⟨hlag, ?_⟩
    rw [hp50, hqs]
    simp
  refine ⟨hmain, ?_⟩
  intro k hk1
  have hk : k < trace.length := by omega
  have h1 := (hmain (k + 1) hk1).1
  rw [h1, lagBlockOf_headD ctx.lags hL, recentAt_succ recent trace k hk]
  rw [List.length_append]
  simp only [List.length_cons, List.length_nil]
  have : recentAt recent trace k ++ [(trace.getD k dummyStep).p50] =
      recentAt recent trace k ++ [(trace.getD k dummyStep).p50] := rfl
  rw [show (recentAt recent trace k).length + (0 + 1) - 1 = (recentAt recent trace k).length by omega]
  exact getD_concat_length _ _ _

def ctxW : FCtx :=
  { lags := 2, quantiles := [1 / 2], futureMeteo := [],
    lastMax := 20, lastMin := 10, lastWind := 3, lastDate := 0 }

def MW : QModel :=
  fun _ feat => feat.lagBlock.headD 0 + 1

def traceW : List StepOut :=
  (forecastLoop MW ctxW [3, 4] 1 2).getD []

theorem eq_some_getD {α : Type} (o : Option α) (d : α) (h : o.isSome = true) :
    o = some (o.getD d) := by
  cases o with
  | none => exact Bool.noConfusion h
  | some a => rfl

/-- C2 witness: with the concrete model `MW` (predict last lag + 1), two
lags, initial window `[3, 4]` and two steps, step 2's `aqi_lag_1`
feature equals step 1's point forecast. -/
theorem C2_recursive_feedback_witness :
    (traceW.getD 1 dummyStep).feat.lagBlock.headD 0 = (traceW.getD 0 dummyStep).p50 :=
  (C2_recursive_feedback MW ctxW [3, 4] 2 traceW
      (eq_some_getD _ [] (forecastLoop_isSome MW ctxW (by decide) 2 [3, 4] 1 (by decide)))
      (by decide)).2 0 (by with_unfolding_all decide)

theorem heatGrid_length (top : List String) : (heatGrid top).length = 20 * top.length := by
  unfold heatGrid
  rw [List.length_flatMap]
  have h1 : ∀ t : ℕ,
      ((List.range 4).flatMap (fun w => top.map (fun ws => (t, w, ws)))).length
        = 4 * top.length := by
    intro t
    rw [List.length_flatMap]
    have h2 : (List.map (List.length ∘ fun w => top.map (fun ws => (t, w, ws))) (List.range 4))
        = List.map (fun _ => top.length) (List.range 4) := by
      apply List.map_congr_left
      intro w _
      simp
    rw [h2, List.map_const']
    rw [List.sum_replicate]
    simp
  have h3 : (List.map
      (List.length ∘ fun t => (List.range 4).flatMap fun w => top.map fun ws => (t, w, ws))
      (List.range 5)) = List.map (fun _ => 4 * top.length) (List.range 5) := by
    apply List.map_congr_left
    intro t _
    simp [h1 t]
  rw [h3, List.map_const', List.sum_replicate]
  simp
  ring

theorem topWeatherCats_length_le (rows : List Row) : (topWeatherCats rows).length ≤ 6 := by
  unfold topWeatherCats
  rw [List.length_map, List.length_take]
  exact min_le_left 6 _

/-- C9: the heatmap aggregator emits at most 5 × 4 × 6 = 120 records;
every emitted record is the arithmetic mean of the aqi values of a
non-empty (temperature-bin, wind-bin, weather) cell whose weather
category is one of the six most frequent ones (rows of other categories
are excluded); and the empty input yields the empty list. -/
theorem C9_heatmap_bounds (df : List Row) :
    (analyze_multi_factor_relationship df).length ≤ 120
  ∧ (∀ rec ∈ analyze_multi_factor_relationship df,
      ∃ t w ws, t < 5 ∧ w < 4 ∧ ws ∈ topWeatherCats (preprocess_data df)
        ∧ cellMembers (preprocess_data df) (heatEdges (preprocess_data df)) t w ws ≠ []
        ∧ rec.aqi = listMean (cellMembers (preprocess_data df)
            (heatEdges (preprocess_data df)) t w ws))
  ∧ (df = [] → analyze_multi_factor_relationship df = []) := by
  refine ⟨?_, ?_, ?_⟩
  · unfold analyze_multi_factor_relationship
    by_cases hp : (preprocess_data df).isEmpty
    · simp [hp]
    · simp only [hp, Bool.false_eq_true, if_false]
      calc ((heatGrid (topWeatherCats (preprocess_data df))).filterMap _).length
          ≤ (heatGrid (topWeatherCats (preprocess_data df))).length :=
            List.length_filterMap_le _ _
        _ = 20 * (topWeatherCats (preprocess_data df)).length :=
            heatGrid_length _
        _ ≤ 20 * 6 :=
            Nat.mul_le_mul_left 20 (topWeatherCats_length_le _)
        _ = 120 := rfl
  · intro rec hrec
    unfold analyze_multi_factor_relationship at hrec
    by_cases hp : (preprocess_data df).isEmpty
    · simp [hp] at hrec
    · simp only [hp, Bool.false_eq_true, if_false] at hrec
      rw [List.mem_filterMap] at hrec
      obtain ⟨twc, htwc, hF⟩ := hrec
      have hgrid : twc.1 < 5 ∧ twc.2.1 < 4 ∧ twc.2.2 ∈ topWeatherCats (preprocess_data df) := by
        unfold heatGrid at htwc
        rw [List.mem_flatMap] at htwc
        obtain ⟨t, ht, htwc⟩ := htwc
        rw [List.mem_flatMap] at htwc
        obtain ⟨w, hw, htwc⟩ := htwc
        rw [List.mem_map] at htwc
        obtain ⟨ws, hws, rfl⟩ := htwc
        rw [List.mem_range] at ht hw
        exact ⟨ht, hw, hws⟩
      by_cases hms : (cellMembers (preprocess_data df) (heatEdges (preprocess_data df))
          twc.1 twc.2.1 twc.2.2).isEmpty
      · rw [if_pos hms] at hF
        exact Option.noConfusion hF
      · rw [if_neg hms] at hF
        injection hF with hF
        refine ⟨twc.1, twc.2.1, twc.2.2, hgrid.1, hgrid.2.1, hgrid.2.2, ?_, ?_⟩
        · intro hnil
          rw [hnil] at hms
          exact hms rfl
        · rw [← hF]
  · intro h
    subst h
    rfl

theorem getD_mem {α : Type} (l : List α) (n : ℕ) (d : α) (h : n < l.length) :
    l.getD n d ∈ l := by
  rw [List.getD_eq_getElem l d h]
  exact List.getElem_mem h

/-- A clean observation with a chosen max temperature, for a
non-degenerate binning range. -/
def mkT (a : ℚ) : Row :=
  { date := some 0, max_temp := .num a, min_temp := .num 10,
    weather := .str "晴", wind := .str "东北风3级", aqi := .num 80 }

set_option maxRecDepth 3000 in
/-- C9 witness: a two-row table produces at most 120 records and its
first record's aqi is the mean of a non-empty cell. -/
theorem C9_heatmap_bounds_witness :
    (analyze_multi_factor_relationship [mkT 0, mkT 1000]).length ≤ 120
  ∧ ∃ t w ws, t < 5 ∧ w < 4 ∧ ws ∈ topWeatherCats (preprocess_data [mkT 0, mkT 1000])
      ∧ cellMembers (preprocess_data [mkT 0, mkT 1000])
          (heatEdges (preprocess_data [mkT 0, mkT 1000])) t w ws ≠ []
      ∧ ((analyze_multi_factor_relationship [mkT 0, mkT 1000]).getD 0 ⟨"", "", "", 0⟩).aqi
          = listMean (cellMembers (preprocess_data [mkT 0, mkT 1000])
              (heatEdges (preprocess_data [mkT 0, mkT 1000])) t w ws) :=
  ⟨(C9_heatmap_bounds [mkT 0, mkT 1000]).1,
   (C9_heatmap_bounds [mkT 0, mkT 1000]).2.1 _
     (getD_mem _ 0 _ (by with_unfolding_all decide))⟩

end Weather
